import Mathlib

/-!
Verification of the MIRAX pointer-indirection index tooling.

This file embeds, in Lean, the decoding logic of the MIRAX diagnostic
scripts (misc/print-mirax.py, misc/decode-mirax.py, misc/split-mirax.py,
misc/split-mirax-nonhier.py, misc/parse-mirax.py and
misc/decode-mirax-tile-position.py) and proves properties of those
embeddings.

Conventions used throughout:
- a 4-byte little-endian signed word is modelled as an `Int`
  (the scripts use struct.unpack with format <i);
- Python integer `//` and `%` with a positive divisor are floor
  division and floor modulus, which agree with `/` and `%` on `Int`
  in this toolchain (`-1 / 4 = -1`, `-5 % 4 = 3`), so the notation
  is used directly;
- a random-access file is a function from byte offset to the word
  stored at that offset, `none` meaning the 4-byte read fails;
- Python code that raises (a failed assert, struct.error at end of
  file, an out-of-range list index) is modelled with `Option` or an
  explicit error constructor;
- loops whose bound is data-dependent take an explicit fuel argument.
-/

/-- HEADER_OFFSET constant shared by print-mirax.py, decode-mirax.py and
the split scripts. -/
def HEADER_OFFSET : Int := 37

/-- Classification used by print-mirax.py (lines 20-27): a word n read
from the stream is shown as a pointer candidate exactly when
(n - HEADER_OFFSET) / 4.0 is a nonnegative integer strictly below
num_items.  The real-number comparisons of the script are rescaled by 4:
(n - 37) / 4 < 0 iff n - 37 < 0, and (n - 37) / 4 >= num_items iff
n - 37 >= 4 * num_items; int(x) == x for x = (n - 37) / 4.0 is exactly
divisibility of n - 37 by 4. -/
def possible_lineno_is_pointer (num_items n : Int) : Bool :=
  if n - HEADER_OFFSET < 0 then false
  else if 4 * num_items ≤ n - HEADER_OFFSET then false
  else if (n - HEADER_OFFSET) % 4 ≠ 0 then false
  else true

/-- get_pointer from decode-mirax.py (lines 17-22): returns the word
index when (num - 37) / 4.0 is an integer that is strictly positive and
strictly below num_items, otherwise None.  Note the strict ptr > 0. -/
def get_pointer (num_items num : Int) : Option Int :=
  if (num - HEADER_OFFSET) % 4 = 0 ∧ 0 < num - HEADER_OFFSET ∧
      num - HEADER_OFFSET < 4 * num_items then
    some ((num - HEADER_OFFSET) / 4)
  else
    none

/-- Table-reading loop of split-mirax.py (lines 31-36), the HIERARCHICAL
convention: read words, stopping at the first zero, which is not
included.  Reaching the end of the list before any zero models the
uncaught struct.error the script would raise, hence `none`. -/
def read_table_hier : List Int → Option (List Int)
  | [] => none
  | w :: rest =>
    if w = 0 then some []
    else (read_table_hier rest).map (fun t => w :: t)

/-- Table-reading loop of split-mirax-nonhier.py (lines 30-40), the
NON_HIERARCHICAL convention: the first zero encountered flips the
first_zero flag and is skipped; the next zero terminates the table.
Nonzero words are appended in stream order. -/
def read_table_nonhier (first_zero : Bool) : List Int → Option (List Int)
  | [] => none
  | w :: rest =>
    if w = 0 then
      if first_zero then some []
      else read_table_nonhier true rest
    else (read_table_nonhier first_zero rest).map (fun t => w :: t)

/-- Helper: the hierarchical reader returns exactly the zero-free block
before the first zero. -/
theorem read_table_hier_eq (a t : List Int) (ha : 0 ∉ a) :
    read_table_hier (a ++ 0 :: t) = some a := by
  induction a with
  | nil => simp [read_table_hier]
  | cons w a ih =>
    have hw : w ≠ 0 := fun h => ha (by simp [h])
    have ha' : 0 ∉ a := fun h => ha (List.mem_cons_of_mem _ h)
    simp [read_table_hier, hw, ih ha']

/-- Helper: once the first zero has been consumed, the non-hierarchical
reader returns the zero-free block before the next zero. -/
theorem read_table_nonhier_true_eq (c t : List Int) (hc : 0 ∉ c) :
    read_table_nonhier true (c ++ 0 :: t) = some c := by
  induction c with
  | nil => simp [read_table_nonhier]
  | cons w c ih =>
    have hw : w ≠ 0 := fun h => hc (by simp [h])
    have hc' : 0 ∉ c := fun h => hc (List.mem_cons_of_mem _ h)
    simp [read_table_nonhier, hw, ih hc']

/-- Helper: from the initial state the non-hierarchical reader drops the
first zero wherever it occurs and stops at the second zero, returning
the two zero-free blocks concatenated. -/
theorem read_table_nonhier_eq (b c t : List Int) (hb : 0 ∉ b) (hc : 0 ∉ c) :
    read_table_nonhier false (b ++ 0 :: c ++ 0 :: t) = some (b ++ c) := by
  induction b with
  | nil => simpa using read_table_nonhier_true_eq c t hc
  | cons w b ih =>
    have hw : w ≠ 0 := fun h => hb (by simp [h])
    have hb' : 0 ∉ b := fun h => hb (List.mem_cons_of_mem _ h)
    simp [read_table_nonhier, hw]
    simpa using ih hb'

/-- C1 counterexample: at v = 37 (quotient 0) with num_items = 10 the two
validator scripts disagree: print-mirax.py classifies the word as a
pointer candidate, while get_pointer in decode-mirax.py classifies it as
a literal even though (v - 37) is divisible by 4 and the quotient 0 lies
in [0, 10).  So the claimed classification rule is not the rule of
decode-mirax.py, and the two scripts do not share one rule. -/
theorem pointer_rule_differs_at_zero :
    possible_lineno_is_pointer 10 37 = true ∧
    get_pointer 10 37 = none ∧
    (37 - HEADER_OFFSET) % 4 = 0 ∧
    0 ≤ (37 - HEADER_OFFSET) / 4 ∧ (37 - HEADER_OFFSET) / 4 < 10 := by
  refine ⟨by decide, ?_, by decide, by decide, by decide⟩
  simp [get_pointer, HEADER_OFFSET]

/-- C1 amended: print-mirax.py classifies v as a pointer candidate iff
(v - 37) is divisible by 4 with quotient in [0, num_items), while
get_pointer in decode-mirax.py additionally requires the quotient to be
strictly positive, classifying quotient 0 as literal; whenever the two
classifications disagree the quotient is 0.  Quotient -1, quotient
num_items and non-multiples of 4 are literal in both scripts. -/
theorem pointer_classification (num_items n : Int) :
    (possible_lineno_is_pointer num_items n = true ↔
      (n - HEADER_OFFSET) % 4 = 0 ∧ 0 ≤ (n - HEADER_OFFSET) / 4 ∧
        (n - HEADER_OFFSET) / 4 < num_items) ∧
    ((get_pointer num_items n).isSome = true ↔
      (n - HEADER_OFFSET) % 4 = 0 ∧ 0 < (n - HEADER_OFFSET) / 4 ∧
        (n - HEADER_OFFSET) / 4 < num_items) ∧
    (possible_lineno_is_pointer num_items n = true →
      get_pointer num_items n = none → (n - HEADER_OFFSET) / 4 = 0) := by
  have hP : possible_lineno_is_pointer num_items n = true ↔
      (n - HEADER_OFFSET) % 4 = 0 ∧ 0 ≤ (n - HEADER_OFFSET) / 4 ∧
        (n - HEADER_OFFSET) / 4 < num_items := by
    unfold possible_lineno_is_pointer HEADER_OFFSET
    split <;> rename_i h1
    · simp; omega
    · split <;> rename_i h2
      · simp; omega
      · split <;> rename_i h3
        · simp; omega
        · simp; omega
  have hG : (get_pointer num_items n).isSome = true ↔
      (n - HEADER_OFFSET) % 4 = 0 ∧ 0 < (n - HEADER_OFFSET) / 4 ∧
        (n - HEADER_OFFSET) / 4 < num_items := by
    unfold get_pointer HEADER_OFFSET
    split <;> rename_i h
    · simp; omega
    · simp; omega
  refine ⟨hP, hG, fun hp hg => ?_⟩
  have h1 := hP.mp hp
  have h2 : ¬((get_pointer num_items n).isSome = true) := by rw [hg]; simp
  rcases h1 with ⟨hd, hq0, hqlt⟩
  have h4 : ¬ 0 < (n - HEADER_OFFSET) / 4 :=
    fun hlt => h2 (hG.mpr ⟨hd, hlt, hqlt⟩)
  omega

/-- C1 witness: at num_items = 10 and n = 37 the amended theorem applies:
print-mirax.py classifies the word as pointer, get_pointer returns none,
and the quotient is 0. -/
theorem pointer_classification_witness : (37 - HEADER_OFFSET) / 4 = 0 :=
  (pointer_classification 10 37).2.2 (by decide)
    (by simp [get_pointer, HEADER_OFFSET])

/-- C2: the hierarchical table reader returns the words up to but
excluding the first zero (so [7, 3, 0, 1] gives [7, 3], and a table
whose first word is zero gives the empty sequence), and the
non-hierarchical reader on a stream with a leading zero skips that zero
and stops at the next one (so [0, 5, 9, 0, 99] gives [5, 9]); in both
modes the returned words appear in stream order, being the zero-free
block itself. -/
theorem read_table_two_conventions (a b t u : List Int)
    (ha : 0 ∉ a) (hb : 0 ∉ b) :
    read_table_hier [7, 3, 0, 1] = some [7, 3] ∧
    (∀ rest : List Int, read_table_hier (0 :: rest) = some []) ∧
    read_table_hier (a ++ 0 :: t) = some a ∧
    read_table_nonhier false [0, 5, 9, 0, 99] = some [5, 9] ∧
    read_table_nonhier false (0 :: b ++ 0 :: u) = some b := by
  refine ⟨by decide, ?_, read_table_hier_eq a t ha, by decide, ?_⟩
  · intro rest; simp [read_table_hier]
  · simpa using read_table_nonhier_eq [] b u (by simp) hb

/-- C2 witness: the two conventions evaluated on the concrete streams of
the claim. -/
theorem read_table_two_conventions_witness :
    read_table_hier ([7, 3] ++ 0 :: [1]) = some [7, 3] ∧
    read_table_nonhier false (0 :: [5, 9] ++ 0 :: [99]) = some [5, 9] := by
  have h := read_table_two_conventions [7, 3] [5, 9] [1] [99]
    (by decide) (by decide)
  exact ⟨h.2.2.1, h.2.2.2.2⟩

/-- C9: in NON_HIERARCHICAL mode the first zero is dropped wherever it
occurs, not only in leading position, and reading stops at the second
zero: a stream made of a zero-free block b, a zero, a zero-free block c,
a zero and anything after decodes to b ++ c. -/
theorem read_table_nonhier_skips_first_zero_anywhere
    (b c t : List Int) (hb : 0 ∉ b) (hc : 0 ∉ c) :
    read_table_nonhier false (b ++ 0 :: c ++ 0 :: t) = some (b ++ c) :=
  read_table_nonhier_eq b c t hb hc

/-- C9 witness: [5, 0, 9, 0, 99] decodes to [5, 9] exactly as
[0, 5, 9, 0, 99] does. -/
theorem read_table_nonhier_skips_first_zero_anywhere_witness :
    read_table_nonhier false ([5] ++ 0 :: [9] ++ 0 :: [99]) = some [5, 9] ∧
    read_table_nonhier false ([] ++ 0 :: [5, 9] ++ 0 :: [99]) = some [5, 9] := by
  have h1 := read_table_nonhier_skips_first_zero_anywhere [5] [9] [99]
    (by decide) (by decide)
  have h2 := read_table_nonhier_skips_first_zero_anywhere [] [5, 9] [99]
    (by decide) (by decide)
  exact ⟨h1, h2⟩

/-- A tile record as reported by read_hier_record in parse-mirax.py
(lines 192-199): the raw tile_index, the derived 2-D grid coordinates,
and the data location (file number, byte position, byte length). -/
structure HierTile where
  tile_index : Int
  grid_x : Int
  grid_y : Int
  fileno : Int
  position : Int
  size : Int
deriving DecidableEq

/-- One fixed 4-tuple of a hierarchical data page, as read by
parse-mirax.py lines 193-196: after the 8-byte page header, entry j
occupies bytes data_page + 8 + 16j .. + 15, holding tile_index,
position, size and file number; the report derives the grid coordinates
tile_index % tiles_x and tile_index // tiles_x. -/
def read_hier_entry (file : Int → Option Int) (tiles_x data_page : Int)
    (j : Nat) : Option HierTile := do
  let tile_index ← file (data_page + 8 + 16 * (j : Int))
  let position ← file (data_page + 8 + 16 * (j : Int) + 4)
  let size ← file (data_page + 8 + 16 * (j : Int) + 8)
  let fileno ← file (data_page + 8 + 16 * (j : Int) + 12)
  pure ⟨tile_index, tile_index % tiles_x, tile_index / tiles_x,
        fileno, position, size⟩

/-- The data-page chain loop of read_hier_record (parse-mirax.py lines
188-199): while the page pointer is nonzero, read (entry_count,
next_page_pointer) at the page, then entry_count 4-tuples; the fuel
argument bounds the number of pages followed, `none` modelling a chain
that does not terminate within fuel or a failed read. -/
def read_hier_pages (file : Int → Option Int) (tiles_x : Int) :
    Nat → Int → Option (List HierTile)
  | 0, data_page => if data_page = 0 then some [] else none
  | fuel + 1, data_page =>
    if data_page = 0 then some []
    else do
      let entries ← file data_page
      let next ← file (data_page + 4)
      let ts ← (List.range entries.toNat).mapM
        (read_hier_entry file tiles_x data_page)
      let rest ← read_hier_pages file tiles_x fuel next
      pure (ts ++ rest)

/-- read_hier_record from parse-mirax.py (lines 175-199): read the table
base at the root, the list head at table_base + record * 4, assert a
zero word at the list head, read the first data page pointer, then walk
the page chain. -/
def read_hier_record (file : Int → Option Int)
    (root_position record tiles_x : Int) (fuel : Nat) :
    Option (List HierTile) := do
  let table_base ← file root_position
  let list_head ← file (table_base + record * 4)
  let z ← file list_head
  if z ≠ 0 then none
  else do
    let data_page ← file (list_head + 4)
    read_hier_pages file tiles_x fuel data_page

/-- Helper: a zero page pointer ends the chain with no tiles, whatever
the remaining fuel. -/
theorem read_hier_pages_zero (file : Int → Option Int) (tiles_x : Int)
    (fuel : Nat) : read_hier_pages file tiles_x fuel 0 = some [] := by
  cases fuel <;> simp [read_hier_pages]

/-- C3: given the table pointer for one zoom level, read_hier_record
reads the (zero, first_page_pointer) pair at the list head and then
walks the page chain from first_page_pointer; a zero first page pointer
decodes to the empty tile list with no error; at each nonzero page it
reads (entry_count, next_page_pointer) and then entry_count 4-tuples,
appending the pages in chain order; and every decoded entry j of a page
carries tile_index read at data_page + 8 + 16j, position, size and file
number read at the following words, with grid coordinates
tile_index mod tiles_x and tile_index div tiles_x. -/
theorem read_hier_record_spec (file : Int → Option Int)
    (root record tiles_x table_base list_head first_page : Int) (fuel : Nat)
    (h1 : file root = some table_base)
    (h2 : file (table_base + record * 4) = some list_head)
    (h3 : file list_head = some 0)
    (h4 : file (list_head + 4) = some first_page) :
    read_hier_record file root record tiles_x fuel =
      read_hier_pages file tiles_x fuel first_page ∧
    (first_page = 0 →
      read_hier_record file root record tiles_x fuel = some []) ∧
    (∀ dp : Int, dp ≠ 0 → ∀ n next : Int,
      file dp = some n → file (dp + 4) = some next →
      read_hier_pages file tiles_x (fuel + 1) dp =
        ((List.range n.toNat).mapM (read_hier_entry file tiles_x dp)).bind
          (fun ts => (read_hier_pages file tiles_x fuel next).bind
            (fun rest => some (ts ++ rest)))) ∧
    (∀ (dp : Int) (j : Nat) (t : HierTile),
      read_hier_entry file tiles_x dp j = some t →
      file (dp + 8 + 16 * (j : Int)) = some t.tile_index ∧
      file (dp + 8 + 16 * (j : Int) + 4) = some t.position ∧
      file (dp + 8 + 16 * (j : Int) + 8) = some t.size ∧
      file (dp + 8 + 16 * (j : Int) + 12) = some t.fileno ∧
      t.grid_x = t.tile_index % tiles_x ∧
      t.grid_y = t.tile_index / tiles_x) := by
  have hrec : read_hier_record file root record tiles_x fuel =
      read_hier_pages file tiles_x fuel first_page := by
    simp [read_hier_record, h1, h2, h3, h4]
  refine ⟨hrec, ?_, ?_, ?_⟩
  · intro h0
    rw [hrec, h0, read_hier_pages_zero]
  · intro dp hdp n next hn hnext
    simp [read_hier_pages, hdp, hn, hnext]
  · intro dp j t h
    unfold read_hier_entry at h
    cases hA : file (dp + 8 + 16 * (j : Int)) with
    | none => simp [hA] at h
    | some ti =>
      cases hB : file (dp + 8 + 16 * (j : Int) + 4) with
      | none => simp [hA, hB] at h
      | some pos =>
        cases hC : file (dp + 8 + 16 * (j : Int) + 8) with
        | none => simp [hA, hB, hC] at h
        | some sz =>
          cases hD : file (dp + 8 + 16 * (j : Int) + 12) with
          | none => simp [hA, hB, hC, hD] at h
          | some fn =>
            simp [hA, hB, hC, hD] at h
            subst h
            simp [hA, hB, hC, hD]

/-- A concrete index file for evaluating the decoders: word i of the
list sits at byte offset 4i. -/
def wordFile (ws : List Int) (p : Int) : Option Int :=
  if 0 ≤ p ∧ p % 4 = 0 then ws.get? (p / 4).toNat else none

/-- Concrete hierarchical index: root at byte 0 holds table base 4, the
record-0 list head is 8, the discarded pair (0, 16) sits at bytes 8-15,
and the single page at byte 16 holds 2 entries and a zero next-page
pointer. -/
def hierTestWords : List Int :=
  [4, 8, 0, 16, 2, 0, 5, 100, 10, 1, 7, 200, 20, 2]

/-- C3 witness: on the concrete file the decoder follows the chain from
first page 16 and produces the two tiles, with grid coordinates
5 mod 3 = 2, 5 div 3 = 1 and 7 mod 3 = 1, 7 div 3 = 2. -/
theorem read_hier_record_spec_witness :
    read_hier_record (wordFile hierTestWords) 0 0 3 5 =
      read_hier_pages (wordFile hierTestWords) 3 5 16 ∧
    read_hier_record (wordFile hierTestWords) 0 0 3 5 =
      some [⟨5, 2, 1, 1, 100, 10⟩, ⟨7, 1, 2, 2, 200, 20⟩] := by
  refine ⟨(read_hier_record_spec (wordFile hierTestWords) 0 0 3 4 8 16 5
    (by decide) (by decide) (by decide) (by decide)).1, by decide⟩

/-- read_nonhier_record from parse-mirax.py (lines 140-172): read the
table base at the root, the list head at table_base + record * 4, then
the page-size word at the list head.  The magic constant 0x302e3130
resolves the record to absent (the Python function returns None, here
`some none`).  Otherwise the page-size word must be zero and the 4-word
prologue at the page pointer must be (1, 0, 0, 0); a failed assert or
read is the outer `none`.  On success the function returns the triple
(fileno, position, size) read after the prologue, as the Python return
statement orders it. -/
def read_nonhier_record (file : Int → Option Int)
    (root_position record : Int) : Option (Option (Int × Int × Int)) := do
  let table_base ← file root_position
  let list_head ← file (table_base + record * 4)
  let pagesize ← file list_head
  if pagesize = 0x302e3130 then
    pure none
  else if pagesize ≠ 0 then
    none
  else do
    let page ← file (list_head + 4)
    let v1 ← file page
    if v1 ≠ 1 then none
    else do
      let v2 ← file (page + 4)
      if v2 ≠ 0 then none
      else do
        let v3 ← file (page + 8)
        if v3 ≠ 0 then none
        else do
          let v4 ← file (page + 12)
          if v4 ≠ 0 then none
          else do
            let position ← file (page + 16)
            let size ← file (page + 20)
            let fileno ← file (page + 24)
            pure (some (fileno, position, size))

/-- C4: after resolving the table base and list head, the page-size word
decides the outcome: the absent sentinel 0x302e3130 resolves to absent
as a normal result whatever the rest of the file holds; any other
nonzero page size is an error; with page size zero, a prologue at the
page pointer that is not (1, 0, 0, 0) is an error and no triple is
returned; and with the prologue exactly (1, 0, 0, 0) the decoder returns
the triple of file number, position and size read after the prologue. -/
theorem read_nonhier_record_spec (file : Int → Option Int)
    (root record table_base list_head pagesize : Int)
    (h1 : file root = some table_base)
    (h2 : file (table_base + record * 4) = some list_head)
    (h3 : file list_head = some pagesize) :
    (pagesize = 0x302e3130 →
      read_nonhier_record file root record = some none) ∧
    (pagesize ≠ 0x302e3130 → pagesize ≠ 0 →
      read_nonhier_record file root record = none) ∧
    (∀ page a b c d : Int, pagesize = 0 →
      file (list_head + 4) = some page →
      file page = some a → file (page + 4) = some b →
      file (page + 8) = some c → file (page + 12) = some d →
      ¬(a = 1 ∧ b = 0 ∧ c = 0 ∧ d = 0) →
      read_nonhier_record file root record = none) ∧
    (∀ page pos sz fn : Int, pagesize = 0 →
      file (list_head + 4) = some page →
      file page = some 1 → file (page + 4) = some 0 →
      file (page + 8) = some 0 → file (page + 12) = some 0 →
      file (page + 16) = some pos → file (page + 20) = some sz →
      file (page + 24) = some fn →
      read_nonhier_record file root record = some (some (fn, pos, sz))) := by
  refine ⟨?_, ?_, ?_, ?_⟩
  · intro hs
    subst hs
    simp [read_nonhier_record, h1, h2, h3]
  · intro hs hz
    simp [read_nonhier_record, h1, h2, h3, hs, hz]
  · intro page a b c d hz hpage ha hb hc hd hbad
    subst hz
    simp [read_nonhier_record, h1, h2, h3, hpage, ha, hb, hc, hd]
    intro ha1 hb1 hc1
    by_contra hd1
    exact hbad ⟨ha1, hb1, hc1, by omega⟩
  · intro page pos sz fn hz hpage ha hb hc hd hpos hsz hfn
    subst hz
    simp [read_nonhier_record, h1, h2, h3, hpage, ha, hb, hc, hd,
      hpos, hsz, hfn]

/-- Concrete non-hierarchical index whose record-0 page-size word is the
absent sentinel. -/
def nonhierAbsentWords : List Int := [4, 8, 0x302e3130]

/-- Concrete non-hierarchical index whose record 0 resolves to the data
triple position 777, size 55, file number 1. -/
def nonhierOkWords : List Int := [4, 8, 0, 16, 1, 0, 0, 0, 777, 55, 1]

/-- C4 witness: the sentinel file resolves to absent as a normal result
and the well-formed file returns the (fileno, position, size) triple. -/
theorem read_nonhier_record_spec_witness :
    read_nonhier_record (wordFile nonhierAbsentWords) 0 0 = some none ∧
    read_nonhier_record (wordFile nonhierOkWords) 0 0 =
      some (some (1, 777, 55)) := by
  refine ⟨(read_nonhier_record_spec (wordFile nonhierAbsentWords) 0 0 4 8
      0x302e3130 (by decide) (by decide) (by decide)).1 rfl, ?_⟩
  exact (read_nonhier_record_spec (wordFile nonhierOkWords) 0 0 4 8 0
      (by decide) (by decide) (by decide)).2.2.2 16 777 55 1 rfl
      (by decide) (by decide) (by decide) (by decide) (by decide)
      (by decide) (by decide) (by decide)

/-- Failure modes of the position-map step of dump_mirax. -/
inductive DumpErr
  | readError
  | unpackError
deriving DecidableEq

/-- The tile-position step of dump_mirax (parse-mirax.py lines 298-303):
the caller unconditionally destructures the result of
read_nonhier_record into (fileno, position, size).  A record that
resolved to absent gives the Python statement None to unpack, raising a
TypeError, modelled as unpackError; a raised read or assert error
propagates as readError. -/
def dump_position_map (file : Int → Option Int)
    (root_position record : Int) : Except DumpErr (Int × Int × Int) :=
  match read_nonhier_record file root_position record with
  | none => .error .readError
  | some none => .error .unpackError
  | some (some t) => .ok t

/-- C10: when the index records the position-map slot with the absent
sentinel, read_nonhier_record resolves to absent without producing a
triple, and the top-level dump step fails with the unpacking error
instead of reporting the position map as absent. -/
theorem dump_position_map_absent_crashes (file : Int → Option Int)
    (root record table_base list_head : Int)
    (h1 : file root = some table_base)
    (h2 : file (table_base + record * 4) = some list_head)
    (h3 : file list_head = some 0x302e3130) :
    read_nonhier_record file root record = some none ∧
    dump_position_map file root record =
      Except.error DumpErr.unpackError := by
  have h : read_nonhier_record file root record = some none := by
    simp [read_nonhier_record, h1, h2, h3]
  exact ⟨h, by simp [dump_position_map, h]⟩

/-- C10 witness: on the concrete sentinel file the dump step raises the
unpacking error. -/
theorem dump_position_map_absent_crashes_witness :
    read_nonhier_record (wordFile nonhierAbsentWords) 0 0 = some none ∧
    dump_position_map (wordFile nonhierAbsentWords) 0 0 =
      Except.error DumpErr.unpackError :=
  dump_position_map_absent_crashes (wordFile nonhierAbsentWords) 0 0 4 8
    (by decide) (by decide) (by decide)

/-- Little-endian signed 32-bit integer from four bytes, as decoded by
struct.unpack with format <i. -/
def int32_le (b0 b1 b2 b3 : Nat) : Int :=
  let u : Nat := b0 + 256 * b1 + 65536 * b2 + 16777216 * b3
  if u < 2147483648 then (u : Int) else (u : Int) - 4294967296

/-- A tile-position refinement as reported by read_tile_position_map in
parse-mirax.py (lines 210-213): coarse grid coordinates and the raw
fixed-point x, y plus the flag byte. -/
structure PosRec where
  grid_x : Int
  grid_y : Int
  x : Int
  y : Int
  zz : Nat
deriving DecidableEq

/-- Entry loop of read_tile_position_map (parse-mirax.py lines 206-213):
entry i is one byte zz followed by int32 x and int32 y; a record is
emitted only when (x, y) is not (0, 0), with coarse grid coordinates
(i mod images_x) * image_divisions and (i div images_x) *
image_divisions, where images_x = tiles_x // image_divisions; x, y and
zz are reported raw. -/
def posEntries (image_divisions tiles_x : Int) :
    List Nat → Int → List PosRec
  | b0 :: b1 :: b2 :: b3 :: b4 :: b5 :: b6 :: b7 :: b8 :: rest, i =>
    let images_x := tiles_x / image_divisions
    let x := int32_le b1 b2 b3 b4
    let y := int32_le b5 b6 b7 b8
    (if x ≠ 0 ∨ y ≠ 0 then
      [⟨(i % images_x) * image_divisions, (i / images_x) * image_divisions,
        x, y, b0⟩]
    else []) ++ posEntries image_divisions tiles_x rest (i + 1)
  | _, _ => []

/-- read_tile_position_map from parse-mirax.py (lines 202-213): assert
that the blob length is a multiple of 9, then decode the entries. -/
def read_tile_position_map (image_divisions tiles_x : Int)
    (bytes : List Nat) : Option (List PosRec) :=
  if (bytes.length : Int) % 9 ≠ 0 then none
  else some (posEntries image_divisions tiles_x bytes 0)

/-- try_reading from decode-mirax-tile-position.py (lines 13-27): each
9-byte record is unpacked with format <iiB, that is int32 x, then int32
y, then the byte zz LAST; x and y are divided by 256.0 (exact for
32-bit inputs, modelled in the rationals) and every record is printed.
A trailing chunk of 1 to 8 bytes raises struct.error, hence `none`. -/
def try_reading : List Nat → Option (List (ℚ × ℚ × Nat))
  | [] => some []
  | b0 :: b1 :: b2 :: b3 :: b4 :: b5 :: b6 :: b7 :: b8 :: rest =>
    (try_reading rest).map (fun l =>
      (((int32_le b0 b1 b2 b3 : Int) : ℚ) / 256,
       ((int32_le b4 b5 b6 b7 : Int) : ℚ) / 256, b8) :: l)
  | _ => none

/-- C5 counterexample: on the 9 bytes that encode flag 3, x = 256,
y = -512 in the flag-first layout the claim asserts, parse-mirax.py
reads back (zz = 3, x = 256, y = -512) but reports the values raw, with
no division by 256, while try_reading in decode-mirax-tile-position.py
unpacks the same bytes as x first and flag last, reporting
(65539/256, -512.0, 255) and not the claimed refinement (1.0, -2.0, 3).
The two cited decoders therefore do not share the claimed flag-first
layout, and no decoder both suppresses (0, 0) and divides by 256. -/
theorem tile_position_layouts_disagree :
    read_tile_position_map 1 1 [3, 0, 1, 0, 0, 0, 254, 255, 255] =
      some [⟨0, 0, 256, -512, 3⟩] ∧
    try_reading [3, 0, 1, 0, 0, 0, 254, 255, 255] =
      some [((65539 : ℚ) / 256, -512, 255)] ∧
    ((65539 : ℚ) / 256, (-512 : ℚ), (255 : Nat)) ≠ ((1 : ℚ), (-2 : ℚ), (3 : Nat)) := by
  refine ⟨by decide, ?_, ?_⟩
  · show (try_reading [] ).map _ = _
    norm_num [try_reading, int32_le]
  · intro h
    have hx : (65539 : ℚ) / 256 = 1 := congrArg Prod.fst h
    norm_num at hx

/-- C5 amended: in parse-mirax.py an entry is one zz byte, then int32 x,
then int32 y; an entry whose (x, y) pair is (0, 0) produces no
refinement record, and a nonzero entry at index i produces one record
carrying the raw fixed-point x, y and zz with the coarse grid
coordinates; in decode-mirax-tile-position.py the 9 bytes are instead
int32 x, int32 y, then the flag byte, every entry is reported, and the
coordinates are divided by 256: the x-first encoding of (x = 256,
y = -512, flag = 3) produces exactly (1.0, -2.0, 3). -/
theorem tile_position_semantics (d t i : Int) (zz : Nat)
    (b1 b2 b3 b4 b5 b6 b7 b8 : Nat) (rest : List Nat) :
    (int32_le b1 b2 b3 b4 = 0 → int32_le b5 b6 b7 b8 = 0 →
      posEntries d t
        (zz :: b1 :: b2 :: b3 :: b4 :: b5 :: b6 :: b7 :: b8 :: rest) i =
        posEntries d t rest (i + 1)) ∧
    (¬(int32_le b1 b2 b3 b4 = 0 ∧ int32_le b5 b6 b7 b8 = 0) →
      posEntries d t
        (zz :: b1 :: b2 :: b3 :: b4 :: b5 :: b6 :: b7 :: b8 :: rest) i =
        ⟨(i % (t / d)) * d, (i / (t / d)) * d, int32_le b1 b2 b3 b4,
          int32_le b5 b6 b7 b8, zz⟩ ::
          posEntries d t rest (i + 1)) ∧
    (∀ (c0 c1 c2 c3 c4 c5 c6 c7 c8 : Nat) (rest2 : List Nat),
      try_reading
        (c0 :: c1 :: c2 :: c3 :: c4 :: c5 :: c6 :: c7 :: c8 :: rest2) =
        (try_reading rest2).map (fun l =>
          (((int32_le c0 c1 c2 c3 : Int) : ℚ) / 256,
           ((int32_le c4 c5 c6 c7 : Int) : ℚ) / 256, c8) :: l)) ∧
    try_reading [0, 1, 0, 0, 0, 254, 255, 255, 3] =
      some [((1 : ℚ), (-2 : ℚ), (3 : Nat))] := by
  refine ⟨?_, ?_, ?_, ?_⟩
  · intro hx hy
    simp [posEntries, hx, hy]
  · intro h
    have hor : int32_le b1 b2 b3 b4 ≠ 0 ∨ int32_le b5 b6 b7 b8 ≠ 0 := by
      tauto
    simp only [posEntries]
    rw [if_pos hor]
    simp
  · intro c0 c1 c2 c3 c4 c5 c6 c7 c8 rest2
    simp [try_reading]
  · show (try_reading []).map _ = _
    norm_num [try_reading, int32_le]

/-- C5 witness: the amended theorem evaluated on the zero entry, on the
flag-first entry (3, 256, -512) at grid origin with image_divisions 1
and tiles_x 1, and on the x-first entry for the conversion. -/
theorem tile_position_semantics_witness :
    posEntries 1 1 [7, 0, 0, 0, 0, 0, 0, 0, 0] 0 = posEntries 1 1 [] 1 ∧
    posEntries 1 1 [3, 0, 1, 0, 0, 0, 254, 255, 255] 0 =
      [⟨0, 0, 256, -512, 3⟩] ∧
    try_reading [0, 1, 0, 0, 0, 254, 255, 255, 3] =
      some [((1 : ℚ), (-2 : ℚ), (3 : Nat))] := by
  exact ⟨(tile_position_semantics 1 1 0 7 0 0 0 0 0 0 0 0 []).1
      (by decide) (by decide), by decide,
    (tile_position_semantics 1 1 0 7 0 0 0 0 0 0 0 0 []).2.2.2⟩

/-- HEADER_SIZE of decode-mirax-tile-position.py. -/
def HEADER_SIZE : Int := 296

/-- is_correct_size from decode-mirax-tile-position.py (lines 8-10): the
file size minus the 296-byte header must be a multiple of the 9-byte
record size. -/
def is_correct_size (filesize : Int) : Bool :=
  (filesize - HEADER_SIZE) % 9 == 0

/-- Outcome of running decode-mirax-tile-position.py on one file. -/
inductive TPRun
  | sizeError
  | readError
  | decoded (l : List (ℚ × ℚ × Nat))
deriving DecidableEq

/-- Main loop of decode-mirax-tile-position.py (lines 32-41): a file
failing is_correct_size is reported as not of the expected size and
try_reading is never called; otherwise the post-header blob is decoded
by try_reading. -/
def decode_tile_position_run (filesize : Int) (blob : List Nat) : TPRun :=
  if is_correct_size filesize then
    match try_reading blob with
    | some l => .decoded l
    | none => .readError
  else .sizeError

/-- Word-stream loading shared by print-mirax.py and decode-mirax.py
(struct.unpack in a loop, lines 17-19 and 25-29): 4-byte words are read
until fewer than 4 bytes remain; the struct.error on a short trailing
chunk is swallowed, so 1 to 3 trailing bytes are silently dropped. -/
def bytesToWords : List Nat → List Int
  | b0 :: b1 :: b2 :: b3 :: rest => int32_le b0 b1 b2 b3 :: bytesToWords rest
  | _ => []

/-- One output line of print-mirax.py: a collapsed run of skipped zero
words, a literal word, or a pointer candidate with its word index. -/
inductive PrintLine
  | skip (count : Nat)
  | literal (i : Nat) (n : Int)
  | pointer (i : Nat) (n : Int) (lineno : Int)
deriving DecidableEq

/-- Main loop of print-mirax.py (lines 17-39): classify each word, count
runs of zero words and emit them as one collapsed skip line before the
next nonzero word; end of stream ends the loop through the bare except.
A pending zero run at end of stream is never printed. -/
def print_mirax_loop (num_items : Int) :
    List Int → Nat → Nat → List PrintLine
  | [], _, _ => []
  | n :: rest, i, num_skipped =>
    if n = 0 then print_mirax_loop num_items rest (i + 1) (num_skipped + 1)
    else
      (if 0 < num_skipped then [PrintLine.skip num_skipped] else []) ++
        (if possible_lineno_is_pointer num_items n then
          PrintLine.pointer i n ((n - HEADER_OFFSET) / 4)
        else PrintLine.literal i n) ::
          print_mirax_loop num_items rest (i + 1) 0

/-- print-mirax.py on a file of the given bytes after the 37-byte
header: num_items is the floor (filesize - HEADER_OFFSET) / 4 (lines
11-12, with no divisibility check), and the whole word stream is
classified. -/
def print_mirax (bytes : List Nat) : List PrintLine :=
  print_mirax_loop ((37 + (bytes.length : Int) - HEADER_OFFSET) / 4)
    (bytesToWords bytes) 0 0

/-- C6 counterexample: a file of 50 bytes (13 bytes past the header, not
a multiple of 4) does not make print-mirax.py fail: the script computes
num_items by floor division, decodes the three complete words as
records, silently drops the trailing byte and raises no error at all,
so the word-stream reader has no fail-fast length check. -/
theorem print_mirax_no_length_check :
    (37 + (([1, 0, 0, 0, 2, 0, 0, 0, 3, 0, 0, 0, 9] : List Nat).length : Int)
      - HEADER_OFFSET) % 4 = 1 ∧
    print_mirax [1, 0, 0, 0, 2, 0, 0, 0, 3, 0, 0, 0, 9] =
      [PrintLine.literal 0 1, PrintLine.literal 1 2,
       PrintLine.literal 2 3] := by
  decide

/-- C6 amended: the position-map decoders do fail fast on a bad length
before decoding any record: decode-mirax-tile-position.py refuses the
whole file when (filesize - 296) % 9 is nonzero, and
read_tile_position_map asserts the blob length is a multiple of 9
before its loop; but the word-stream reader performs no multiple-of-4
check: it decodes a word for each complete 4-byte group and silently
drops the 1 to 3 trailing bytes. -/
theorem stream_length_checks :
    (∀ (filesize : Int) (blob : List Nat), is_correct_size filesize = false →
      decode_tile_position_run filesize blob = TPRun.sizeError) ∧
    (∀ (d t : Int) (bytes : List Nat), (bytes.length : Int) % 9 ≠ 0 →
      read_tile_position_map d t bytes = none) ∧
    (∀ (b0 b1 b2 b3 : Nat) (rest : List Nat),
      bytesToWords (b0 :: b1 :: b2 :: b3 :: rest) =
        int32_le b0 b1 b2 b3 :: bytesToWords rest) ∧
    (bytesToWords [] = []) ∧
    (∀ b0 : Nat, bytesToWords [b0] = []) ∧
    (∀ b0 b1 : Nat, bytesToWords [b0, b1] = []) ∧
    (∀ b0 b1 b2 : Nat, bytesToWords [b0, b1, b2] = []) := by
  refine ⟨?_, ?_, ?_, rfl, ?_, ?_, ?_⟩
  · intro filesize blob h
    simp [decode_tile_position_run, h]
  · intro d t bytes h
    simp [read_tile_position_map, h]
  · intro b0 b1 b2 b3 rest
    rfl
  · intro b0
    rfl
  · intro b0 b1
    rfl
  · intro b0 b1 b2
    rfl

/-- C6 witness: the amended theorem applied at file size 305 (9 bytes
past the 296-byte header would be correct; 300 is not), at a 10-byte
blob, and at a 7-byte stream decoding to one word. -/
theorem stream_length_checks_witness :
    decode_tile_position_run 300 [1, 2, 3] = TPRun.sizeError ∧
    read_tile_position_map 1 1 [1, 2, 3, 4, 5, 6, 7, 8, 9, 10] = none ∧
    bytesToWords [1, 0, 0, 0, 9, 9, 9] = [1] := by
  refine ⟨stream_length_checks.1 300 [1, 2, 3] (by decide),
    stream_length_checks.2.1 1 1 [1, 2, 3, 4, 5, 6, 7, 8, 9, 10] (by decide),
    ?_⟩
  rw [stream_length_checks.2.2.1 1 0 0 0 [9, 9, 9],
    stream_length_checks.2.2.2.2.2.2 9 9 9]
  decide

/-- Result of the inner entry loop of decode4s (decode-mirax.py lines
41-49): early return of the accumulated first fields, continuation at a
new position, or an out-of-range list index. -/
inductive D4Step
  | ret (vals : List Int)
  | next (ptr : Nat) (acc : List Int)
  | err
deriving DecidableEq

/-- Inner loop of decode4s: read the 4-word group at ptr (an IndexError
if any of the four indices is out of range), return the accumulator as
soon as a group's fourth field is not 4, otherwise append the group's
first field and continue 4 words further, count times. -/
def d4_entries (values : List Int) : Nat → Nat → List Int → D4Step
  | 0, ptr, acc => .next ptr acc
  | count + 1, ptr, acc =>
    match values.get? ptr, values.get? (ptr + 1), values.get? (ptr + 2),
        values.get? (ptr + 3) with
    | some v0, some _, some _, some v3 =>
      if v3 ≠ 4 then .ret acc
      else d4_entries values count (ptr + 4) (acc ++ [v0])
    | _, _, _, _ => .err

/-- Result of decode4s: a returned list, an IndexError crash, or no
return within fuel (the Python while True loop not yet finished). -/
inductive D4Res
  | finished (vals : List Int)
  | indexError
  | outOfFuel
deriving DecidableEq

/-- Outer loop of decode4s (decode-mirax.py lines 35-49): read count at
ptr, advance 2 words, process count 4-word groups, and repeat from the
position after the groups.  A negative count gives an empty Python
range, modelled by Int.toNat. -/
def decode4s_loop (values : List Int) : Nat → Nat → List Int → D4Res
  | 0, _, _ => .outOfFuel
  | fuel + 1, ptr, acc =>
    match values.get? ptr with
    | none => .indexError
    | some count =>
      match d4_entries values count.toNat (ptr + 2) acc with
      | .ret vals => .finished vals
      | .err => .indexError
      | .next ptr2 acc2 => decode4s_loop values fuel ptr2 acc2

/-- decode4s from decode-mirax.py, entered with ptr at the sentinel word
itself, so that the sentinel value doubles as the first count. -/
def decode4s (values : List Int) (fuel : Nat) (ptr : Nat) : D4Res :=
  decode4s_loop values fuel ptr []

/-- Decoder modelled from the claim words, for comparison: from the
start position, decode consecutive 4-word groups, accumulating the
first field of each, and stop returning the accumulated values exactly
when a group's fourth field is not 4; `none` when the region runs out
of words (or fuel) before such a group. -/
def decode4s_claimed (values : List Int) :
    Nat → Nat → List Int → Option (List Int)
  | 0, _, _ => none
  | fuel + 1, ptr, acc =>
    match values.get? ptr, values.get? (ptr + 1), values.get? (ptr + 2),
        values.get? (ptr + 3) with
    | some v0, some _, some _, some v3 =>
      if v3 ≠ 4 then some acc
      else decode4s_claimed values fuel (ptr + 4) (acc ++ [v0])
    | _, _, _, _ => none

/-- Outcome of the pointer-following loop of decode-mirax.py (lines
52-67): the sentinel branch with its decode4s result, a silent loop
exit when no classification applies (ptr becomes None), an IndexError
crash, or no termination within fuel. -/
inductive WalkOutcome
  | decoded (r : D4Res)
  | exhausted
  | indexError
  | outOfFuel
deriving DecidableEq

/-- The pointer-following loop of decode-mirax.py: at ptr, read the word
(IndexError if past the end), step over a zero word, decode from a 128
sentinel, otherwise jump to get_pointer of the word, exiting the loop
when get_pointer returns None. -/
def walk (values : List Int) : Nat → Nat → WalkOutcome
  | 0, _ => .outOfFuel
  | fuel + 1, ptr =>
    match values.get? ptr with
    | none => .indexError
    | some value =>
      if value = 0 then walk values fuel (ptr + 1)
      else if value = 128 then .decoded (decode4s values fuel ptr)
      else
        match get_pointer (values.length : Int) value with
        | some p => walk values fuel p.toNat
        | none => .exhausted

/-- Helper: from position 1 of the stream [41, 41] the walker revisits
position 1 forever: word 41 has (41 - 37) / 4 = 1, a valid pointer to
itself. -/
theorem walk_cycle_aux (fuel : Nat) :
    walk [41, 41] fuel 1 = WalkOutcome.outOfFuel := by
  induction fuel with
  | zero => rfl
  | succ f ih =>
    have hgp : get_pointer (([41, 41] : List Int).length : Int) 41 =
        some 1 := by decide
    simp only [walk, List.get?, hgp]
    simpa using ih

/-- C7 counterexample: on the stream [0, 0] every word is a zero marker,
the cursor walks past the end of the stream and the script crashes with
an IndexError instead of terminating with a reported status.  So the
traversal does not always complete without crashing. -/
theorem walk_crashes_on_all_zero :
    walk [0, 0] 10 0 = WalkOutcome.indexError := by decide

/-- C7 amended: at a dead end (a word that is neither zero nor the
sentinel and does not classify as a pointer) the loop does terminate,
silently, without crash; but the traversal is not bounded by the file
size in general: a run of zeros reaching the end of the stream crashes
with an IndexError, and a word stream with a pointer cycle such as
[41, 41] never terminates, exhausting any fuel. -/
theorem walk_termination_behavior :
    (∀ (values : List Int) (fuel p : Nat) (v : Int),
      values.get? p = some v → v ≠ 0 → v ≠ 128 →
      get_pointer (values.length : Int) v = none →
      walk values (fuel + 1) p = WalkOutcome.exhausted) ∧
    (∀ fuel : Nat, walk [0, 0] (fuel + 3) 0 = WalkOutcome.indexError) ∧
    (∀ fuel : Nat, walk [41, 41] fuel 0 = WalkOutcome.outOfFuel) := by
  refine ⟨?_, ?_, ?_⟩
  · intro values fuel p v h hv0 hv128 hgp
    have h' : values[p]? = some v := by
      simpa [List.get?_eq_getElem?] using h
    simp [walk, h', hv0, hv128, hgp]
  · intro fuel
    simp [walk, List.get?]
  · intro fuel
    cases fuel with
    | zero => rfl
    | succ f =>
      have hgp : get_pointer (([41, 41] : List Int).length : Int) 41 =
          some 1 := by decide
      simp only [walk, List.get?, hgp]
      simpa using walk_cycle_aux f

/-- C7 witness: the amended theorem evaluated on a one-word dead-end
stream, the all-zero stream, and the self-pointing stream. -/
theorem walk_termination_behavior_witness :
    walk [5] 1 0 = WalkOutcome.exhausted ∧
    walk [0, 0] 3 0 = WalkOutcome.indexError ∧
    walk [41, 41] 5 0 = WalkOutcome.outOfFuel :=
  ⟨walk_termination_behavior.1 [5] 0 0 5 rfl (by decide) (by decide)
      (by decide),
   walk_termination_behavior.2.1 0, walk_termination_behavior.2.2 5⟩

/-- The word stream used to separate decode4s from the claimed
flat-table reading: the sentinel 128 and one skipped word, then 128
consecutive groups (1, 0, 0, 4), then a second page header (2, 0)
followed by the groups (10, 0, 0, 4) and (11, 0, 0, 7). -/
def bigVals : List Int :=
  [128, 0] ++ (List.replicate 128 ([1, 0, 0, 4] : List Int)).flatten ++
    [2, 0, 10, 0, 0, 4, 11, 0, 0, 7]

set_option maxRecDepth 40000 in
/-- C8 counterexample: decode4s does not read the region as one table of
consecutive 4-word groups.  The sentinel 128 doubles as the first group
count, and after 128 groups the two words (2, 0) are consumed as a new
count and skipped word, so decode4s accumulates 10 from the following
group and returns on the (11, 0, 0, 7) group; reading the same region
as consecutive groups from the same start stops at the 129th group
(2, 0, 10, 0), whose fourth field 0 is not 4, without ever accumulating
10.  The two outputs differ, so the claimed description is not the
behavior of decode4s. -/
theorem decode4s_not_flat_groups :
    decode4s bigVals 3 0 = D4Res.finished (List.replicate 128 1 ++ [10]) ∧
    decode4s_claimed bigVals 200 2 [] = some (List.replicate 128 1) ∧
    List.replicate 128 (1 : Int) ++ [10] ≠ List.replicate 128 (1 : Int) := by
  refine ⟨by decide, by decide, by decide⟩

/-- C8 amended: on sentinel 128 the walker calls decode4s at the
sentinel position, so the sentinel value doubles as the first group
count; decode4s repeatedly reads a count word, skips one word, and then
reads count consecutive 4-word groups, accumulating each group's first
field; it returns the accumulated values exactly when a group's fourth
field is not 4, that group's first field excluded. -/
theorem decode4s_structure (values : List Int) (count ptr : Nat)
    (acc : List Int) (v0 v1 v2 v3 cnt : Int) (fuel : Nat) :
    (values.get? ptr = some v0 → values.get? (ptr + 1) = some v1 →
      values.get? (ptr + 2) = some v2 → values.get? (ptr + 3) = some v3 →
      v3 ≠ 4 →
      d4_entries values (count + 1) ptr acc = D4Step.ret acc) ∧
    (values.get? ptr = some v0 → values.get? (ptr + 1) = some v1 →
      values.get? (ptr + 2) = some v2 → values.get? (ptr + 3) = some v3 →
      v3 = 4 →
      d4_entries values (count + 1) ptr acc =
        d4_entries values count (ptr + 4) (acc ++ [v0])) ∧
    (d4_entries values 0 ptr acc = D4Step.next ptr acc) ∧
    (values.get? ptr = some cnt →
      decode4s_loop values (fuel + 1) ptr acc =
        match d4_entries values cnt.toNat (ptr + 2) acc with
        | D4Step.ret vals => D4Res.finished vals
        | D4Step.err => D4Res.indexError
        | D4Step.next ptr2 acc2 => decode4s_loop values fuel ptr2 acc2) ∧
    (values.get? ptr = some 128 →
      walk values (fuel + 1) ptr =
        WalkOutcome.decoded (decode4s values fuel ptr)) := by
  refine ⟨?_, ?_, rfl, ?_, ?_⟩
  · intro h0 h1 h2 h3 hne
    have g0 : values[ptr]? = some v0 := by
      simpa [List.get?_eq_getElem?] using h0
    have g1 : values[ptr + 1]? = some v1 := by
      simpa [List.get?_eq_getElem?] using h1
    have g2 : values[ptr + 2]? = some v2 := by
      simpa [List.get?_eq_getElem?] using h2
    have g3 : values[ptr + 3]? = some v3 := by
      simpa [List.get?_eq_getElem?] using h3
    simp [d4_entries, g0, g1, g2, g3, hne]
  · intro h0 h1 h2 h3 heq
    have g0 : values[ptr]? = some v0 := by
      simpa [List.get?_eq_getElem?] using h0
    have g1 : values[ptr + 1]? = some v1 := by
      simpa [List.get?_eq_getElem?] using h1
    have g2 : values[ptr + 2]? = some v2 := by
      simpa [List.get?_eq_getElem?] using h2
    have g3 : values[ptr + 3]? = some v3 := by
      simpa [List.get?_eq_getElem?] using h3
    simp [d4_entries, g0, g1, g2, g3, heq]
  · intro h
    have h' : values[ptr]? = some cnt := by
      simpa [List.get?_eq_getElem?] using h
    simp [decode4s_loop, h']
  · intro h
    have h' : values[ptr]? = some 128 := by
      simpa [List.get?_eq_getElem?] using h
    simp [walk, h']

/-- C8 witness: the amended theorem applied on a small two-page stream:
group (7, 0, 0, 4) is accumulated and the loop advances 4 words, group
(8, 0, 0, 5) returns the accumulator, and a sentinel word starts
decode4s at the sentinel position. -/
theorem decode4s_structure_witness :
    d4_entries [2, 99, 7, 0, 0, 4, 8, 0, 0, 5] 1 6 [7] = D4Step.ret [7] ∧
    d4_entries [2, 99, 7, 0, 0, 4, 8, 0, 0, 5] 2 2 [] =
      d4_entries [2, 99, 7, 0, 0, 4, 8, 0, 0, 5] 1 6 ([] ++ [7]) ∧
    walk [128, 0, 1, 0, 0, 5] 2 0 =
      WalkOutcome.decoded (decode4s [128, 0, 1, 0, 0, 5] 1 0) :=
  ⟨(decode4s_structure [2, 99, 7, 0, 0, 4, 8, 0, 0, 5] 0 6 [7]
      8 0 0 5 0 0).1 rfl rfl rfl rfl (by decide),
   (decode4s_structure [2, 99, 7, 0, 0, 4, 8, 0, 0, 5] 1 2 []
      7 0 0 4 0 0).2.1 rfl rfl rfl rfl rfl,
   (decode4s_structure [128, 0, 1, 0, 0, 5] 0 0 [] 0 0 0 0 0 1).2.2.2.2
      rfl⟩
